import Mathlib

/-!
Shallow embedding of the NimbleDB `cbench` benchmark engine
(`src/cbench/cbench.cc`, `src/cbench/cbench.h`, `src/cbench/config.h`,
the `base.h` result/bench enums and the runner in the unnamed main file).

All machine integers are embedded as `Nat`, with an explicit `% 2 ^ w`
wherever the C code can wrap.  Fallible paths (assertion failures, null
dereference, `Fatal`) are embedded with `Option`: `none` is an aborted run.
-/

namespace CBench

/-- Result codes crossing the driver boundary (`enum class Result`). -/
inductive Result where
  | ok
  | notFound
  | systemError
  | unexpectedError
deriving DecidableEq, Repr

/-- Workload kinds (`enum BenchType`), in source enum order
`kTypeSet, kTypeGet, kTypeDelete, kTypeIterate, kTypeBatch, kTypeCrud`. -/
inductive BenchType where
  | set
  | get
  | del
  | iterate
  | batch
  | crud
deriving DecidableEq, Repr

/-- The numeric value of the `BenchType` enumerator. -/
def BenchType.toNat : BenchType → Nat
  | .set => 0
  | .get => 1
  | .del => 2
  | .iterate => 3
  | .batch => 4
  | .crud => 5

/-- Enum order of the per-kind loop in `Worker::FulFil`
(`for it = kTypeSet; it < kTypeMaxCode; it++`). -/
def benchOrder : List BenchType :=
  [.set, .get, .del, .iterate, .batch, .crud]

/-- The 64-symbol printable alphabet from `cbench.h`. -/
def alphabet : List Char :=
  "@0123456789abcdefghijklmnopqrstuvwxyzABCDEFGHIJKLMNOPQRSTUVWXYZ_".toList

/-- `Bitmask(n) = ~0ULL >> (64 - n)`: the first `n` bits set. -/
def bitmask (n : Nat) : Nat := (2 ^ 64 - 1) >>> (64 - n)

/-- The 64-bit "fractal" prime added in `Keyer::Injection`. -/
def fractalPrime : Nat := 10042331536242289283

/-- The additive constant of `Remix4Tail`. -/
def remixConst : Nat := 7015912586649315971

/-- `Remix4Tail(point) = point ^ (((point << 47) | (point >> 17)) + C)`,
all in `uint64` arithmetic. -/
def remix4Tail (point : Nat) : Nat :=
  point ^^^ ((((point <<< 47) % 2 ^ 64) ||| (point >>> 17)) + remixConst) % 2 ^ 64

/-- A record is a key/value pair of byte views; we embed the generated
contents (printable mode emits `alphabet` characters). -/
structure Record where
  key : List Char
  value : List Char
deriving DecidableEq, Repr

/-- `Keyer::Options`. -/
structure KeyerOptions where
  binary : Bool
  count : Nat
  keySize : Nat
  valueSize : Nat
  spacesCount : Nat
  sectorsCount : Nat
deriving DecidableEq, Repr

/-- The `Keyer::Injection` pipeline, parameterised by the seed-box
contents (2048 `uint16` words; the source indexes `x & 2047`).
Follows the source branch per `width_` exactly; widths outside `1..8`
hit `Unreachable()` in the source and are given the junk value `0` here
(the constructor only ever produces widths `2..8`). -/
def keyerInjection (box : Nat → Nat) (width x0 : Nat) : Nat :=
  let x1 := (x0 + fractalPrime) % 2 ^ 64
  let x := x1 ^^^ box (x1 &&& 2047)
  if width = 1 then
    let y := x % 2 ^ 8
    let y := y ^^^ (y >>> 1)
    let y := (y * 113) % 2 ^ 8
    (y ^^^ (y <<< 2)) % 2 ^ 8
  else if width = 2 then
    let y := x % 2 ^ 16
    let y := y ^^^ (y >>> 1)
    let y := (y * 25693) % 2 ^ 16
    (y ^^^ (y <<< 7)) % 2 ^ 16
  else if width = 3 then
    let m := bitmask 24
    let y := x &&& m
    let y := y ^^^ (y >>> 1)
    let y := (y * 5537317) % 2 ^ 32
    let y := (y ^^^ (y <<< 12)) % 2 ^ 32
    y &&& m
  else if width = 4 then
    let y := x % 2 ^ 32
    let y := y ^^^ (y >>> 1)
    let y := (y * 1923730889) % 2 ^ 32
    (y ^^^ (y <<< 15)) % 2 ^ 32
  else if width = 5 then
    let m := bitmask 40
    let y := x &&& m
    let y := y ^^^ (y >>> 1)
    let y := (y * 274992889273) % 2 ^ 64
    let y := (y ^^^ (y <<< 13)) % 2 ^ 64
    y &&& m
  else if width = 6 then
    let m := bitmask 48
    let y := x &&& m
    let y := y ^^^ (y >>> 1)
    let y := (y * 70375646670269) % 2 ^ 64
    let y := (y ^^^ (y <<< 15)) % 2 ^ 64
    y &&& m
  else if width = 7 then
    let m := bitmask 56
    let y := x &&& m
    let y := y ^^^ (y >>> 1)
    let y := (y * 23022548244171181) % 2 ^ 64
    let y := (y ^^^ (y <<< 4)) % 2 ^ 64
    y &&& m
  else if width = 8 then
    let y := x % 2 ^ 64
    let y := y ^^^ (y >>> 1)
    let y := (y * 4613509448041658233) % 2 ^ 64
    (y ^^^ (y <<< 25)) % 2 ^ 64
  else 0

end CBench

namespace CBench

/-- The printable `Keyer::Fill` loop: emit `alphabet[acc & 63]` per byte,
decrement `length`, and when fewer than 6 bits remain refill with
`acc = *point = Remix4Tail(*point + acc)`.  Returns the emitted
characters and the final `*point`.  Structural recursion on `length`. -/
def fillPrintable (width : Nat) : Nat → Nat → Nat → Nat → List Char × Nat
  | _point, _acc, _left, 0 => ([], _point)
  | point, acc, _left, 1 => ([alphabet.getD (acc &&& 63) '@'], point)
  | point, acc, left, Nat.succ (Nat.succ n) =>
    let c := alphabet.getD (acc &&& 63) '@'
    let acc2 := acc >>> 6
    let left2 := left - 6
    if left2 < 6 then
      let p2 := remix4Tail ((point + acc2) % 2 ^ 64)
      let r := fillPrintable width p2 p2 (width * 8) (Nat.succ n)
      (c :: r.1, r.2)
    else
      let r := fillPrintable width point acc2 left2 (Nat.succ n)
      (c :: r.1, r.2)

/-- `Keyer::RecordPair` in printable mode: inject the point, fill the key,
then (when `vsize != 0`) remix once and fill the value. -/
def recordPair (box : Nat → Nat) (width keySize vsize point : Nat) : Record :=
  let p1 := keyerInjection box width point
  let kr := fillPrintable width p1 p1 (width * 8) keySize
  if vsize ≠ 0 then
    let p3 := remix4Tail kr.2
    let vr := fillPrintable width p3 p3 (width * 8) vsize
    ⟨kr.1, vr.1⟩
  else
    ⟨kr.1, []⟩

/-- Bit-width selection of the `Keyer` constructor: smallest
`bits ∈ {16,…,64}` with `maxkey < Bitmask(bits)` (`< UINT64_MAX` for 64);
`none` models the `Fatal(...)` overflow branch. -/
def keyerBits (maxkey : Nat) : Option Nat :=
  if maxkey < bitmask 16 then some 16
  else if maxkey < bitmask 24 then some 24
  else if maxkey < bitmask 32 then some 32
  else if maxkey < bitmask 40 then some 40
  else if maxkey < bitmask 48 then some 48
  else if maxkey < bitmask 56 then some 56
  else if maxkey < 2 ^ 64 - 1 then some 64
  else none

/-- Mutable generator state: `{options, width_, base_, serial_}`. -/
structure KeyerState where
  opts : KeyerOptions
  width : Nat
  base : Nat
  serial : Nat
deriving DecidableEq, Repr

/-- The `Keyer` constructor.  `none` models `assert(maxkey >= 2)` failing,
the `Fatal` width-overflow branch, or the division by a zero
`sectors_count` (undefined in C).  The floating-point key-length check is
an external rejection path and is not embedded. -/
def mkKeyer (opts : KeyerOptions) (kspace ksector : Nat) : Option KeyerState :=
  let maxkey := (opts.count * opts.spacesCount) % 2 ^ 64
  if maxkey < 2 then none
  else
    match keyerBits maxkey with
    | none => none
    | some bits =>
      if ksector ≠ 0 ∧ opts.sectorsCount = 0 then none
      else
        let serial0 :=
          if ksector ≠ 0 then
            (opts.count * ksector % 2 ^ 64 / opts.sectorsCount) % opts.count
          else 0
        some ⟨opts, bits / 8, kspace * opts.count % 2 ^ 64, serial0⟩

/-- `Keyer::Get`: emit the record for `point = base_ + serial_`, advance
`serial_` modulo `count`.  In `key_only` mode the value span is empty and
`RecordPair` is called with `vsize = 0`. -/
def keyerGet (box : Nat → Nat) (st : KeyerState) (keyOnly : Bool) :
    Record × KeyerState :=
  let point := (st.base + st.serial) % 2 ^ 64
  let serial2 := (st.serial + 1) % st.opts.count
  let vsize := if keyOnly then 0 else st.opts.valueSize
  (recordPair box st.width st.opts.keySize vsize point,
   { st with serial := serial2 })

end CBench

namespace CBench

/-- Nanosecond constants `US`, `MS`, `S` from `base.h`. -/
def nsUS : Nat := 1000

/-- One millisecond in nanoseconds. -/
def nsMS : Nat := 1000000

/-- One second in nanoseconds. -/
def nsS : Nat := 1000000000

/-- The `LINE_12_100(M)` macro: sixteen sub-bands of one decade. -/
def line12to100 (m : Nat) : List Nat :=
  [m * 12, m * 14, m * 16, m * 18, m * 20, m * 25, m * 30, m * 35,
   m * 40, m * 45, m * 50, m * 60, m * 70, m * 80, m * 90, m * 100]

/-- The 167 histogram thresholds `kBuckets` (`~0ULL` is `2^64 - 1`). -/
def kBucketsList : List Nat :=
  9 :: (line12to100 1 ++ line12to100 10 ++ line12to100 100 ++
    line12to100 nsUS ++ line12to100 (nsUS * 10) ++ line12to100 (nsUS * 100) ++
    line12to100 nsMS ++ line12to100 (nsMS * 10) ++ line12to100 (nsMS * 100) ++
    line12to100 nsS ++
    [nsS * 5 * 60, nsS * 30 * 60, nsS * 3600 * 4, nsS * 3600 * 8,
     nsS * 3600 * 24, 2 ^ 64 - 1])

/-- `kBuckets[i]` (out-of-range reads never occur in the source). -/
def kBucket (i : Nat) : Nat := kBucketsList.getD i 0

/-- `kHistogramCount = 167`. -/
def kHistogramCount : Nat := 167

/-- The downward linear fallback of the search in `Bucket::Add`:
`for (medium = finish; medium > begin; medium--)
   if (kBuckets[medium-1] < latency) break;`. -/
def bucketScan (latency b : Nat) : Nat → Nat
  | 0 => 0
  | Nat.succ m =>
    if Nat.succ m ≤ b then Nat.succ m
    else if kBucket m < latency then Nat.succ m
    else bucketScan latency b m

/-- The binary-search loop of `Bucket::Add` with `medium = begin/2 +
finish/2`; the `fuel` argument bounds the iteration count (the loop always
terminates in at most `finish - begin` steps, see `bucketSearchGo_inBand`),
and on exhaustion we conservatively fall back to the linear scan. -/
def bucketSearchGo (latency : Nat) : Nat → Nat → Nat → Nat
  | 0, b, f => bucketScan latency b f
  | Nat.succ fuel, b, f =>
    let m := b / 2 + f / 2
    if m = b then bucketScan latency b f
    else if kBucket (m - 1) < latency then bucketSearchGo latency fuel m f
    else bucketSearchGo latency fuel b m

/-- The bucket index `Bucket::Add` selects for a latency sample:
`begin = 0`, `finish = kHistogramCount - 1 = 166`. -/
def bucketIndexOf (latency : Nat) : Nat :=
  bucketSearchGo latency kHistogramCount 0 (kHistogramCount - 1)

/-- `kBuckets[i-1] < v ≤ kBuckets[i]`, taking `kBuckets[-1] = 0`: the
spec characterisation of the selected bucket index. -/
def inBand (v i : Nat) : Prop :=
  (if i = 0 then 0 else kBucket (i - 1)) < v ∧ v ≤ kBucket i

instance (v i : Nat) : Decidable (inBand v i) := by
  unfold inBand; infer_instance

end CBench

namespace CBench

/-- Run `Keyer::Get` repeatedly from a state, collecting the emitted keys
(the key span contents of each record). -/
def keyerKeyRun (box : Nat → Nat) : KeyerState → Nat → List (List Char)
  | _, 0 => []
  | st, Nat.succ n =>
    let r := keyerGet box st false
    r.1.key :: keyerKeyRun box r.2 n

/-- `INT_MAX` on the benchmark target (32-bit `int`). -/
def intMax : Nat := 2147483647

/-- The condition of `assert(pool_size < 1 || pool_size > INT_MAX / 2)` at
the top of the `Keyer::Batch` constructor; the assertion aborts exactly
when this is false. -/
def batchAssertCond (poolSize : Nat) : Prop :=
  poolSize < 1 ∨ poolSize > intMax / 2

instance (poolSize : Nat) : Decidable (batchAssertCond poolSize) := by
  unfold batchAssertCond; infer_instance

/-- A constructed batch pool: the cursor over pre-computed records. -/
structure BatchPool where
  records : List Record
deriving DecidableEq, Repr

/-- The `Keyer::Batch` constructor.  `none` models an aborted run: either
the assertion fails, or the record-fill loop dereferences the `gen_`
member, which is still its initializer `nullptr` (it is assigned from the
`gen` argument only after the loop). -/
def batchMk (_gen : KeyerState) (poolSize : Nat) : Option BatchPool :=
  if ¬ batchAssertCond poolSize then none
  else if poolSize = 0 then some ⟨[]⟩
  else none

/-- Snapshot counters `{n, volume_sum, latency_sum_ns, latency_sum_square}`
(`struct Stats`). -/
structure Stats where
  n : Nat
  volumeSum : Nat
  latencySumNs : Nat
  latencySumSquare : Nat
deriving DecidableEq, Repr

/-- The all-zero `Stats` value (`Stats last_{}, acc_{}`). -/
def Stats.zero : Stats := ⟨0, 0, 0, 0⟩

/-- `~0ULL`. -/
def umax64 : Nat := 2 ^ 64 - 1

/-- A per-worker (or registry-aggregate) sample bucket (`class Bucket`),
with the 167 count slots as a list. -/
structure Bucket where
  enabled : Bool
  isWorker : Bool
  bench : BenchType
  mergeEvo : Nat
  min : Nat
  max : Nat
  wholeMin : Nat
  wholeMax : Nat
  checkpointNs : Nat
  beginNs : Nat
  endNs : Nat
  last : Stats
  acc : Stats
  counts : List Nat
deriving DecidableEq, Repr

/-- A fresh bucket as built by the `Bucket` constructor field
initializers (`min_ = 0, max_ = 0, whole_min_ = ~0, whole_max_ = ~0`,
zeroed stats and counts, `merge_evo_` copied from the registry). -/
def Bucket.fresh (isWorker : Bool) (registryEvo : Nat) : Bucket :=
  { enabled := false, isWorker := isWorker, bench := .set,
    mergeEvo := registryEvo, min := 0, max := 0,
    wholeMin := umax64, wholeMax := umax64,
    checkpointNs := 0, beginNs := 0, endNs := 0,
    last := Stats.zero, acc := Stats.zero,
    counts := List.replicate kHistogramCount 0 }

/-- `Bucket::Reset`: arm the bucket for a workload kind; stats, counts and
`merge_evo_` are left untouched. -/
def bucketReset (b : Bucket) (bench : BenchType) (now : Nat) : Bucket :=
  { b with enabled := true, bench := bench, min := umax64,
           wholeMin := umax64, checkpointNs := now, beginNs := now,
           endNs := now }

/-- The registry (`class Histogram`): one aggregate bucket per workload
kind, the atomic counters, and the two checkpoints. -/
structure Registry where
  startingPoint : Nat
  checkpointNs : Nat
  mergeEvo : Nat
  workersActive : Nat
  workersMerged : Nat
  perBench : BenchType → Bucket

/-- The `Histogram` constructor: template (non-worker) buckets for all six
kinds, `Reset` applied to the configured ones. -/
def registryInit (benchmarks : List BenchType) (now : Nat) : Registry :=
  { startingPoint := now, checkpointNs := now, mergeEvo := 0,
    workersActive := 0, workersMerged := 0,
    perBench := fun bench =>
      if benchmarks.contains bench then
        bucketReset (Bucket.fresh false 0) bench now
      else Bucket.fresh false 0 }

/-- `Histogram::Summarize(now)` for a nonzero `now` argument (the zero
default re-reads the clock; the modelled call sites always pass a time).
Returns the roll result `{-1, 0, 1}` and the updated registry; `none`
models the `Fatal` branch (`workers_merged` overtook `workers_active`).
The log lines it prints are not modelled. -/
def summarize (reg : Registry) (now : Nat) : Option (Int × Registry) :=
  if now - reg.checkpointNs < nsS then some (-1, reg)
  else
    let merged := reg.workersMerged + 1
    if reg.workersActive > merged then
      some (0, { reg with workersMerged := merged })
    else if reg.workersActive ≠ merged then none
    else
      some (1,
        { reg with
          checkpointNs := now,
          workersMerged := 0,
          mergeEvo := reg.mergeEvo + 1,
          perBench := fun bench =>
            let h := reg.perBench bench
            if h.enabled then
              { h with wholeMin := Nat.min h.wholeMin h.min, min := umax64,
                       wholeMax := Nat.max h.wholeMax h.max, max := 0,
                       last := h.acc }
            else h })

/-- `Histogram::MergeLocked(src, now)`: add the `acc - last` delta of a
worker bucket into the aggregate of its kind, then maybe `Summarize`.
Returns the registry, the source bucket (whose `merge_evo_` may advance)
and whether the merge body ran at all; `none` propagates a `Summarize`
abort.  The source bucket counts and stats are NOT reset here — that is
done by the caller in `Bucket::Add` only. -/
def mergeLocked (reg : Registry) (src : Bucket) (now : Nat) :
    Option (Registry × Bucket × Bool) :=
  let dst := reg.perBench src.bench
  if dst.enabled = true ∧ src.acc.n ≠ src.last.n then
    let dst :=
      { dst with
        acc :=
          { latencySumNs :=
              (dst.acc.latencySumNs + (src.acc.latencySumNs - src.last.latencySumNs)) % 2 ^ 64,
            latencySumSquare :=
              (dst.acc.latencySumSquare + (src.acc.latencySumSquare - src.last.latencySumSquare)) % 2 ^ 64,
            volumeSum :=
              (dst.acc.volumeSum + (src.acc.volumeSum - src.last.volumeSum)) % 2 ^ 64,
            n := (dst.acc.n + (src.acc.n - src.last.n)) % 2 ^ 64 },
        counts := List.zipWith (fun a b => (a + b) % 2 ^ 64) dst.counts src.counts,
        beginNs :=
          if dst.beginNs = 0 ∨ dst.beginNs > src.beginNs then src.beginNs
          else dst.beginNs,
        endNs := Nat.max dst.endNs src.endNs,
        min := Nat.min dst.min src.min,
        max := Nat.max dst.max src.max }
    let reg2 :=
      { reg with perBench := fun bench =>
          if bench = src.bench then dst else reg.perBench bench }
    if src.mergeEvo = reg2.mergeEvo then
      match summarize reg2 now with
      | none => none
      | some (ret, reg3) =>
        if ret ≥ 0 then some (reg3, { src with mergeEvo := src.mergeEvo + 1 }, true)
        else some (reg3, src, true)
    else some (reg2, src, true)
  else some (reg, src, false)

/-- `Histogram::Merge`: take the registry mutex unconditionally and merge
(single-threaded model: the lock always succeeds). -/
def histogramMerge (reg : Registry) (src : Bucket) (now : Nat) :
    Option (Registry × Bucket × Bool) :=
  mergeLocked reg src now

/-- `kIntervalMerge = S / 100` (10 ms). -/
def kIntervalMerge : Nat := nsS / 100

/-- `Bucket::Add(t0, volume)` together with its opportunistic merge: the
sample is accumulated, its band count incremented, and if this bucket is
current for the epoch and the merge interval elapsed, the registry is
merged into and the local window reset.  The `try_lock` is modelled as
always succeeding (no contention in a single-threaded run). -/
def bucketAdd (reg : Registry) (b : Bucket) (t0 now volume : Nat) :
    Option (Bucket × Registry) :=
  let latency := (now - t0) % 2 ^ 64
  let b :=
    { b with
      beginNs := if b.beginNs = 0 then t0 else b.beginNs,
      endNs := now,
      acc :=
        { latencySumNs := (b.acc.latencySumNs + latency) % 2 ^ 64,
          latencySumSquare := (b.acc.latencySumSquare + latency * latency) % 2 ^ 64,
          n := (b.acc.n + 1) % 2 ^ 64,
          volumeSum := (b.acc.volumeSum + volume) % 2 ^ 64 },
      min := Nat.min b.min latency,
      max := Nat.max b.max latency }
  let idx := bucketIndexOf latency
  let b := { b with counts := b.counts.set idx (b.counts.getD idx 0 + 1) }
  if b.mergeEvo ≠ reg.mergeEvo ∨ now - b.checkpointNs < kIntervalMerge then
    some (b, reg)
  else
    match mergeLocked reg b now with
    | none => none
    | some (reg2, b2, _) =>
      some ({ b2 with
              checkpointNs := now, min := umax64, max := 0, last := b2.acc,
              counts := List.replicate kHistogramCount 0 }, reg2)

/-- A driver call observed at the `Begin`/`Next`/`Done` interface; the
record carried by `Next` is the one passed in. -/
inductive DCall where
  | dcBegin (bench : BenchType)
  | dcNext (bench : BenchType) (kv : Record)
  | dcDone (bench : BenchType)
deriving DecidableEq, Repr

/-- A deterministic driver behind the polymorphic `Driver` contract.
`threadNew` yields `none` to model a null context; `dNext` may rewrite the
record (a real store fills the value on `Get`). -/
structure DriverModel (sigma : Type) where
  threadNew : sigma → Option Unit × sigma
  dBegin : sigma → BenchType → Result × sigma
  dNext : sigma → BenchType → Record → Result × Record × sigma
  dDone : sigma → BenchType → Result × sigma

/-- The full mutable world one worker sees: driver state, generators,
its bucket, the registry, a clock cursor, and observation traces
(`calls`: driver ops issued; `samples`: volumes passed to `Bucket::Add`;
`kindResults`: the loop result recorded per workload kind). -/
structure WorkerSt (sigma : Type) where
  dstate : sigma
  genA : KeyerState
  genB : Option KeyerState
  hg : Bucket
  reg : Registry
  clock : Nat
  calls : List DCall
  samples : List Nat
  kindResults : List (BenchType × Result)
  doersDone : Nat
  workersCount : Nat
  gFailed : Bool

/-- `kBenchMask2Keyspace = (1 << kTypeBatch) | (1 << kTypeCrud)`. -/
def kBenchMask2Keyspace : Nat := (1 <<< 4) ||| (1 <<< 5)

/-- The `Worker` constructor: reject an empty mask (`Fatal`), build
`gen_a` at `(key_space, key_sequence)` and, for two-keyspace masks,
`gen_b` at `(key_space + 1, key_sequence)`; constructing the member
bucket bumps the registry `workers_active` and copies its epoch, and
`workers_count` becomes 1 (single-worker model). -/
def mkWorkerSt {sigma : Type} (d0 : sigma) (opts : KeyerOptions)
    (keySpace keySeq mask : Nat) (reg : Registry) : Option (WorkerSt sigma) :=
  if mask = 0 then none
  else
    match mkKeyer opts keySpace keySeq with
    | none => none
    | some ga =>
      let reg2 := { reg with workersActive := reg.workersActive + 1 }
      let base : WorkerSt sigma :=
        { dstate := d0, genA := ga, genB := none,
          hg := Bucket.fresh true reg.mergeEvo, reg := reg2, clock := 0,
          calls := [], samples := [], kindResults := [],
          doersDone := 0, workersCount := 1, gFailed := false }
      if mask &&& kBenchMask2Keyspace ≠ 0 then
        match mkKeyer opts (keySpace + 1) keySeq with
        | none => none
        | some gb => some { base with genB := some gb }
      else some base

/-- The engine-level configuration fields the worker reads. -/
structure WorkerConfig where
  count : Nat
  nrepeat : Nat
  batchLength : Nat
  ignoreKeyNotFound : Bool
  continuousCompleting : Bool
deriving DecidableEq, Repr

/-- One `GetTimeNow()` call: read the clock stream and advance the
cursor. -/
def tickNow {sigma : Type} (tf : Nat → Nat) (w : WorkerSt sigma) :
    Nat × WorkerSt sigma :=
  (tf w.clock, { w with clock := w.clock + 1 })

/-- `Worker::EvalCrud(a, b)`: `Next(Set,b); Next(Set,a); Next(Delete,b);
Next(Get,a)`, where `NotFound` from the Delete/Get sub-steps is logged and
swallowed only under `ignore_keynotfound`.  Returns the result and the
(possibly driver-rewritten) records. -/
def evalCrud {sigma : Type} (dm : DriverModel sigma) (cfg : WorkerConfig)
    (a b : Record) (w : WorkerSt sigma) :
    Result × Record × Record × WorkerSt sigma :=
  let r1 := dm.dNext w.dstate .set b
  let w := { w with dstate := r1.2.2, calls := w.calls ++ [.dcNext .set b] }
  let b := r1.2.1
  if r1.1 ≠ .ok then (r1.1, a, b, w)
  else
    let r2 := dm.dNext w.dstate .set a
    let w := { w with dstate := r2.2.2, calls := w.calls ++ [.dcNext .set a] }
    let a := r2.2.1
    if r2.1 ≠ .ok then (r2.1, a, b, w)
    else
      let r3 := dm.dNext w.dstate .del b
      let w := { w with dstate := r3.2.2, calls := w.calls ++ [.dcNext .del b] }
      let b := r3.2.1
      if r3.1 = .notFound ∧ ¬ cfg.ignoreKeyNotFound then (.notFound, a, b, w)
      else if r3.1 ≠ .ok ∧ r3.1 ≠ .notFound then (r3.1, a, b, w)
      else
        let r4 := dm.dNext w.dstate .get a
        let w := { w with dstate := r4.2.2, calls := w.calls ++ [.dcNext .get a] }
        let a := r4.2.1
        if r4.1 = .notFound ∧ ¬ cfg.ignoreKeyNotFound then (.notFound, a, b, w)
        else if r4.1 ≠ .ok ∧ r4.1 ≠ .notFound then (r4.1, a, b, w)
        else (.ok, a, b, w)

/-- `Worker::EvalBenchmarkGST`: one Get/Set/Delete operation.  Note the
source lines `if (!rc) { rc = rc2; }  if (!rc) { return rc; }  return
Result::kOk;` — a failed `rc` is REPLACED by `Done`\'s result. -/
def evalBenchmarkGST {sigma : Type} (box : Nat → Nat) (tf : Nat → Nat)
    (dm : DriverModel sigma) (cfg : WorkerConfig) (bench : BenchType)
    (w : WorkerSt sigma) : Option (Result × WorkerSt sigma) :=
  let g := keyerGet box w.genA (bench ≠ .set)
  let w := { w with genA := g.2 }
  let t := tickNow tf w
  let t0 := t.1
  let w := t.2
  let rb := dm.dBegin w.dstate bench
  let w := { w with dstate := rb.2, calls := w.calls ++ [.dcBegin bench] }
  let step : Result × Record × WorkerSt sigma :=
    if rb.1 = .ok then
      let rn := dm.dNext w.dstate bench g.1
      (rn.1, rn.2.1,
       { w with dstate := rn.2.2, calls := w.calls ++ [.dcNext bench g.1] })
    else (rb.1, g.1, w)
  let rc := step.1
  let a := step.2.1
  let w := step.2.2
  let rd := dm.dDone w.dstate bench
  let rc2 := rd.1
  let w := { w with dstate := rd.2, calls := w.calls ++ [.dcDone bench] }
  let t2 := tickNow tf w
  let w := t2.2
  let vol := if bench = .del then a.key.length else a.key.length + a.value.length
  match bucketAdd w.reg w.hg t0 t2.1 vol with
  | none => none
  | some (hg2, reg2) =>
    let w := { w with hg := hg2, reg := reg2, samples := w.samples ++ [vol] }
    let rc := if rc = .notFound ∧ cfg.ignoreKeyNotFound then .ok else rc
    let rc := if rc ≠ .ok then rc2 else rc
    if rc ≠ .ok then some (rc, w) else some (.ok, w)

/-- `Worker::EvalBenchmarkCrud`: two records, one `Begin(Crud)`/`EvalCrud`
/`Done(Crud)` round, one sample.  Dereferencing a missing `gen_b` is an
aborted run (`none`). -/
def evalBenchmarkCrud {sigma : Type} (box : Nat → Nat) (tf : Nat → Nat)
    (dm : DriverModel sigma) (cfg : WorkerConfig) (w : WorkerSt sigma) :
    Option (Result × WorkerSt sigma) :=
  match w.genB with
  | none => none
  | some gbSt =>
    let ga := keyerGet box w.genA false
    let gb := keyerGet box gbSt false
    let w := { w with genA := ga.2, genB := some gb.2 }
    let t := tickNow tf w
    let t0 := t.1
    let w := t.2
    let rb := dm.dBegin w.dstate .crud
    let w := { w with dstate := rb.2, calls := w.calls ++ [.dcBegin .crud] }
    let step : Result × Record × Record × WorkerSt sigma :=
      if rb.1 = .ok then evalCrud dm cfg ga.1 gb.1 w
      else (rb.1, ga.1, gb.1, w)
    let rc := step.1
    let a := step.2.1
    let b := step.2.2.1
    let w := step.2.2.2
    let post : Result × WorkerSt sigma :=
      if rc = .ok then
        let rd := dm.dDone w.dstate .crud
        (rd.1, { w with dstate := rd.2, calls := w.calls ++ [.dcDone .crud] })
      else (rc, w)
    let rc := post.1
    let w := post.2
    let t2 := tickNow tf w
    let w := t2.2
    let vol := a.key.length + a.value.length + b.key.length + b.value.length +
      a.key.length + b.key.length + b.value.length
    match bucketAdd w.reg w.hg t0 t2.1 vol with
    | none => none
    | some (hg2, reg2) =>
      some (rc, { w with hg := hg2, reg := reg2, samples := w.samples ++ [vol] })

/-- The body loop of `Worker::EvalBenchmarkIterate`: `Next(Iterate)` per
step, a sample per step, stop at `++i == count` or a non-Ok result
(fuel-bounded; each pass advances `i`, so `count + 1` fuel is enough). -/
def iterLoop {sigma : Type} (tf : Nat → Nat) (dm : DriverModel sigma)
    (cfg : WorkerConfig) :
    Nat → Nat → Nat → WorkerSt sigma → Option (Result × Nat × WorkerSt sigma)
  | 0, _, _, _ => none
  | Nat.succ fuel, i, t0, w =>
    let rn := dm.dNext w.dstate .iterate ⟨[], []⟩
    let a := rn.2.1
    let w := { w with dstate := rn.2.2,
                      calls := w.calls ++ [.dcNext .iterate ⟨[], []⟩] }
    let t := tickNow tf w
    let w := t.2
    let vol := a.key.length + a.value.length
    match bucketAdd w.reg w.hg t0 t.1 vol with
    | none => none
    | some (hg2, reg2) =>
      let w := { w with hg := hg2, reg := reg2, samples := w.samples ++ [vol] }
      let i2 := i + 1
      if i2 = cfg.count then some (rn.1, i2, w)
      else
        let t2 := tickNow tf w
        if rn.1 = .ok then iterLoop tf dm cfg fuel i2 t2.1 t2.2
        else some (rn.1, i2, t2.2)

/-- `Worker::EvalBenchmarkIterate`: one `Begin(Iterate)`, the `Next` loop,
`NotFound` resolving to Ok, then `Done(Iterate)` if still Ok. -/
def evalBenchmarkIterate {sigma : Type} (tf : Nat → Nat)
    (dm : DriverModel sigma) (cfg : WorkerConfig) (i : Nat)
    (w : WorkerSt sigma) : Option (Result × Nat × WorkerSt sigma) :=
  let t := tickNow tf w
  let w := t.2
  let rb := dm.dBegin w.dstate .iterate
  let w := { w with dstate := rb.2, calls := w.calls ++ [.dcBegin .iterate] }
  let looped : Option (Result × Nat × WorkerSt sigma) :=
    if rb.1 = .ok then iterLoop tf dm cfg (cfg.count + 1) i t.1 w
    else some (rb.1, i, w)
  match looped with
  | none => none
  | some (rc, i2, w2) =>
    let rc := if rc = .notFound then .ok else rc
    if rc = .ok then
      let rd := dm.dDone w2.dstate .iterate
      some (rd.1, i2,
        { w2 with dstate := rd.2, calls := w2.calls ++ [.dcDone .iterate] })
    else some (rc, i2, w2)

/-- `Worker::EvalBenchmarkBatch`: `GetBatch` runs the `Keyer::Batch`
constructor, which aborts for any nonzero pool size (see `batchMk`); the
only completing case is a zero `batch_length`, where the crud loop body
never runs and the sample volume is `record_size * batch_length = 0`
(both records still default-constructed, hence empty). -/
def evalBenchmarkBatch {sigma : Type} (tf : Nat → Nat)
    (dm : DriverModel sigma) (cfg : WorkerConfig) (i : Nat)
    (w : WorkerSt sigma) : Option (Result × Nat × WorkerSt sigma) :=
  match w.genB with
  | none => none
  | some gbSt =>
    match batchMk w.genA cfg.batchLength, batchMk gbSt cfg.batchLength with
    | some _, some _ =>
      let t := tickNow tf w
      let t0 := t.1
      let w := t.2
      let rb := dm.dBegin w.dstate .batch
      let w := { w with dstate := rb.2, calls := w.calls ++ [.dcBegin .batch] }
      let rc := rb.1
      let rc2 :=
        if rc = .ok then
          let rd := dm.dDone w.dstate .batch
          (rd.1, { w with dstate := rd.2, calls := w.calls ++ [.dcDone .batch] })
        else (rc, w)
      let w := rc2.2
      let t2 := tickNow tf w
      let w := t2.2
      match bucketAdd w.reg w.hg t0 t2.1 0 with
      | none => none
      | some (hg2, reg2) =>
        some (rc2.1, i,
          { w with hg := hg2, reg := reg2, samples := w.samples ++ [0] })
    | _, _ => none

/-- The per-kind operation loop of `Worker::FulFil`:
`for (i = 0; rc == Ok && i < count;)` dispatching on the kind
(fuel-bounded; every completing pass advances `i` or fails). -/
def kindLoop {sigma : Type} (box : Nat → Nat) (tf : Nat → Nat)
    (dm : DriverModel sigma) (cfg : WorkerConfig) (bench : BenchType) :
    Nat → Nat → WorkerSt sigma → Option (Result × WorkerSt sigma)
  | 0, _, _ => none
  | Nat.succ fuel, i, w =>
    if i < cfg.count then
      match bench with
      | .set | .get | .del =>
        match evalBenchmarkGST box tf dm cfg bench w with
        | none => none
        | some (rc, w2) =>
          if rc = .ok then kindLoop box tf dm cfg bench fuel (i + 1) w2
          else some (rc, w2)
      | .crud =>
        match evalBenchmarkCrud box tf dm cfg w with
        | none => none
        | some (rc, w2) =>
          if rc = .ok then kindLoop box tf dm cfg bench fuel (i + 1) w2
          else some (rc, w2)
      | .iterate =>
        match evalBenchmarkIterate tf dm cfg i w with
        | none => none
        | some (rc, i2, w2) =>
          if rc = .ok then kindLoop box tf dm cfg bench fuel i2 w2
          else some (rc, w2)
      | .batch =>
        match evalBenchmarkBatch tf dm cfg i w with
        | none => none
        | some (rc, i2, w2) =>
          if rc = .ok then kindLoop box tf dm cfg bench fuel i2 w2
          else some (rc, w2)
    else some (.ok, w)

/-- The per-kind sweep of one `FulFil` iteration: for each kind in enum
order whose mask bit is set (while `rc == Ok`), `Reset` the bucket, run
the kind loop, then `Histogram::Merge` the bucket — without resetting it. -/
def kindsPass {sigma : Type} (box : Nat → Nat) (tf : Nat → Nat)
    (dm : DriverModel sigma) (cfg : WorkerConfig) (mask : Nat) :
    List BenchType → Result → WorkerSt sigma →
    Option (Result × WorkerSt sigma)
  | [], rc, w => some (rc, w)
  | bench :: rest, rc, w =>
    if rc ≠ .ok then some (rc, w)
    else if ¬ mask.testBit bench.toNat then
      kindsPass box tf dm cfg mask rest rc w
    else
      let t := tickNow tf w
      let w := { t.2 with hg := bucketReset t.2.hg bench t.1 }
      match kindLoop box tf dm cfg bench (cfg.count + 1) 0 w with
      | none => none
      | some (rc2, w2) =>
        let t2 := tickNow tf w2
        match histogramMerge t2.2.reg t2.2.hg t2.1 with
        | none => none
        | some (reg2, hg2, _) =>
          kindsPass box tf dm cfg mask rest rc2
            { t2.2 with reg := reg2, hg := hg2,
                        kindResults := t2.2.kindResults ++ [(bench, rc2)] }

/-- The iteration loop of `Worker::FulFil` (fuel-bounded): run kind sweeps
while `count < nrepeat` (or, under `continuous_completing`, while peers
are still running), bump `doers_done` on budget completion, and break on
a failed sweep or a raised `failed_flag` — RETURNING 0 EITHER WAY, as the
source does. -/
def fulFilGo {sigma : Type} (box : Nat → Nat) (tf : Nat → Nat)
    (dm : DriverModel sigma) (cfg : WorkerConfig) (mask : Nat) :
    Nat → Nat → WorkerSt sigma → Option (Int × WorkerSt sigma)
  | 0, _, _ => none
  | Nat.succ fuel, count, w =>
    if count < cfg.nrepeat ∨
        (cfg.continuousCompleting ∧ w.doersDone < w.workersCount) then
      match kindsPass box tf dm cfg mask benchOrder .ok w with
      | none => none
      | some (rc, w2) =>
        let count2 := count + 1
        let w3 :=
          if count2 = cfg.nrepeat then { w2 with doersDone := w2.doersDone + 1 }
          else w2
        if rc ≠ .ok ∨ w3.gFailed then some (0, w3)
        else fulFilGo box tf dm cfg mask fuel count2 w3
    else some (0, w)

/-- `Worker::FulFil`: obtain a context (`-1` when null), run the
iteration loop, dispose.  The fuel bounds the iteration count
(`nrepeat` iterations when `continuous_completing` is off). -/
def fulFil {sigma : Type} (box : Nat → Nat) (tf : Nat → Nat)
    (dm : DriverModel sigma) (cfg : WorkerConfig) (mask fuel : Nat)
    (w : WorkerSt sigma) : Option (Int × WorkerSt sigma) :=
  let tn := dm.threadNew w.dstate
  match tn.1 with
  | none => some (-1, { w with dstate := tn.2 })
  | some _ => fulFilGo box tf dm cfg mask fuel 0 { w with dstate := tn.2 }

/-- `Runner::WorkerThreadFunc` / the coordinator body: the shared
`failed_` flag is raised exactly when `FulFil` returned nonzero. -/
def workerThreadSetsFailed (rc : Int) (failed : Bool) : Bool :=
  failed || decide (rc ≠ 0)

/-- `Runner::Run`\'s return value after the cohort finishes: `-1` when the
failed flag is set, otherwise 0 (then the summary prints). -/
def runnerRunResult (failed : Bool) : Int := if failed then -1 else 0

/-- `main`: `EXIT_FAILURE` when `Runner::Run` returned nonzero, else 0. -/
def mainExitCode (runResult : Int) : Nat := if runResult ≠ 0 then 1 else 0

/-- The `debug` driver: logs and returns `Ok` everywhere, never touches
the record, always yields a context. -/
def debugDriver : DriverModel Unit :=
  { threadNew := fun s => (some (), s),
    dBegin := fun s _ => (.ok, s),
    dNext := fun s _ kv => (.ok, kv, s),
    dDone := fun s _ => (.ok, s) }

/-- A driver like `debug` except that its first `Next` reports
`SystemError` (state counts `Next` calls). -/
def failingNextDriver : DriverModel Nat :=
  { threadNew := fun s => (some (), s),
    dBegin := fun s _ => (.ok, s),
    dNext := fun s _ kv => (if s = 0 then .systemError else .ok, kv, s + 1),
    dDone := fun s _ => (.ok, s) }

/-- A driver whose `Next` always reports `SystemError` while `Begin` and
`Done` report `Ok`. -/
def nextErrDriver : DriverModel Unit :=
  { threadNew := fun s => (some (), s),
    dBegin := fun s _ => (.ok, s),
    dNext := fun s _ kv => (.systemError, kv, s),
    dDone := fun s _ => (.ok, s) }

/-- A driver whose `Next` reports `SystemError` and whose `Done` reports
`NotFound`. -/
def nextErrDoneNfDriver : DriverModel Unit :=
  { threadNew := fun s => (some (), s),
    dBegin := fun s _ => (.ok, s),
    dNext := fun s _ kv => (.systemError, kv, s),
    dDone := fun s _ => (.notFound, s) }

/-- An all-zero seed box. -/
def zeroBox : Nat → Nat := fun _ => 0

/-- Seed-box contents under which the injection pipeline collides: two
entries are tuned so that `(P + 100) mod 2^16` and `(P + 101) mod 2^16`
both XOR to 42; every entry is a valid `uint16`. -/
def c1Box : Nat → Nat := fun i =>
  if i = 646 then 43692 else if i = 647 then 43693 else 0

/-- An accepted configuration with `maxkey = 4 * 2 = 8 < 2^16 - 1`
(so `bits = 16`, `width = 2`): two spaces of 4 keys, printable 3-byte
keys, no values. -/
def c1Opts : KeyerOptions :=
  { binary := false, count := 4, keySize := 3, valueSize := 0,
    spacesCount := 2, sectorsCount := 1 }

/-- The key emitted by space 0 at serial 3 (raw index `0·4 + 3`). -/
def c1KeyA : List Char := (recordPair c1Box 2 3 0 3).key

/-- The key emitted by space 1 at serial 0 (raw index `1·4 + 0`). -/
def c1KeyB : List Char := (recordPair c1Box 2 3 0 4).key

/-- Options of the end-to-end scenario
`-D debug -B crud -n 1 -k 16 -v 32 -w 1 -r 0`: the runner derives
`sectors = max(1, 0, 1) = 1` and `spaces = max(1, 1) * 2 = 2`, and gives
the single writer `key_space = 2`, `key_sequence = 1`. -/
def c6Opts : KeyerOptions :=
  { binary := false, count := 1, keySize := 16, valueSize := 32,
    spacesCount := 2, sectorsCount := 1 }

/-- Worker configuration for the crud scenario (`-n 1`, defaults
`nrepeat = 1`, `batch_length = 500`, no flags). -/
def c6Cfg : WorkerConfig :=
  { count := 1, nrepeat := 1, batchLength := 500,
    ignoreKeyNotFound := false, continuousCompleting := false }

/-- The crud mask `1 << kTypeCrud`. -/
def crudMask : Nat := 1 <<< 5

/-- The get mask `1 << kTypeGet`. -/
def getMask : Nat := 1 <<< 1

/-- The first record of the crud worker\'s `gen_a` (space 2). -/
def c6RecA (box : Nat → Nat) : Record :=
  (keyerGet box ⟨c6Opts, 2, 2, 0⟩ false).1

/-- The first record of the crud worker\'s `gen_b` (space 3). -/
def c6RecB (box : Nat → Nat) : Record :=
  (keyerGet box ⟨c6Opts, 2, 3, 0⟩ false).1

/-- The crud scenario run against the debug driver (clock stream `i ↦ i`:
merge intervals never elapse mid-run, as in any fast wall-clock run). -/
def c6Run (box : Nat → Nat) : Option (Int × WorkerSt Unit) :=
  (mkWorkerSt () c6Opts 2 1 crudMask (registryInit [.crud] 0)).bind
    (fun w => fulFil box (fun i => i) debugDriver c6Cfg crudMask
      (c6Cfg.nrepeat + 1) w)

/-- The same crud scenario against a driver whose first `Next` reports
`SystemError` (the C2 failure-propagation scenario). -/
def c2Run : Option (Int × WorkerSt Nat) :=
  (mkWorkerSt 0 c6Opts 2 1 crudMask (registryInit [.crud] 0)).bind
    (fun w => fulFil zeroBox (fun i => i) failingNextDriver c6Cfg crudMask
      (c6Cfg.nrepeat + 1) w)

/-- Options of the end-to-end scenario
`-D debug -B get -n 10 -k 16 -v 32 -r 1 -w 0`: `sectors = 1`,
`spaces = 1`; the single reader runs at `key_space = 0`,
`key_sequence = 1`. -/
def c4Opts : KeyerOptions :=
  { binary := false, count := 10, keySize := 16, valueSize := 32,
    spacesCount := 1, sectorsCount := 1 }

/-- Worker configuration of the get scenario (`-n 10`). -/
def c4Cfg : WorkerConfig :=
  { count := 10, nrepeat := 1, batchLength := 500,
    ignoreKeyNotFound := false, continuousCompleting := false }

/-- The get scenario run against the debug driver. -/
def c4Run (box : Nat → Nat) : Option (Int × WorkerSt Unit) :=
  (mkWorkerSt () c4Opts 0 1 getMask (registryInit [.get] 0)).bind
    (fun w => fulFil box (fun i => i) debugDriver c4Cfg getMask
      (c4Cfg.nrepeat + 1) w)

/-- One `EvalBenchmarkGST(Get)` step against a driver whose `Next`
reports `SystemError` while `Done` reports `Ok`. -/
def c3Run : Option (Result × WorkerSt Unit) :=
  (mkWorkerSt () c4Opts 0 1 getMask (registryInit [.get] 0)).bind
    (fun w => evalBenchmarkGST zeroBox (fun i => i) nextErrDriver c4Cfg .get w)

/-- One `EvalBenchmarkGST(Get)` step where `Next` reports `SystemError`
and `Done` reports `NotFound`. -/
def c3RunB : Option (Result × WorkerSt Unit) :=
  (mkWorkerSt () c4Opts 0 1 getMask (registryInit [.get] 0)).bind
    (fun w =>
      evalBenchmarkGST zeroBox (fun i => i) nextErrDoneNfDriver c4Cfg .get w)

/-- A worker bucket holding exactly one not-yet-merged sample (one count
in the lowest band, `acc.n = 1`, `last.n = 0`). -/
def c8Src : Bucket :=
  { Bucket.fresh true 0 with
    enabled := true, bench := .get,
    acc := { n := 1, volumeSum := 16, latencySumNs := 5, latencySumSquare := 25 },
    counts := (List.replicate kHistogramCount 0).set 0 1 }

/-- A registry with the get aggregate enabled and one active worker. -/
def c8Reg : Registry :=
  { registryInit [.get] 0 with workersActive := 1 }

/-- Options for the sector-rotation witness: two spaces and two sectors
of 3 keys each (`maxkey = 6`, 16-bit width). -/
def c9Opts : KeyerOptions :=
  { binary := false, count := 3, keySize := 3, valueSize := 0,
    spacesCount := 2, sectorsCount := 2 }

set_option maxRecDepth 8000 in
lemma kBucketsList_length : kBucketsList.length = 167 := by decide

set_option maxRecDepth 8000 in
lemma kBucket_step : ∀ i, i < 166 → kBucket i < kBucket (i + 1) := by decide

lemma kBucket_of_ge (i : Nat) (h : 167 ≤ i) : kBucket i = 0 := by
  unfold kBucket
  exact List.getD_eq_default _ _ (kBucketsList_length ▸ h)

lemma kBucket_mono : ∀ d i, i + d ≤ 166 → kBucket i ≤ kBucket (i + d) := by
  intro d
  induction d with
  | zero => intro i _; exact Nat.le_refl _
  | succ n ih =>
    intro i h
    calc kBucket i ≤ kBucket (i + n) := ih i (by omega)
      _ ≤ kBucket (i + n + 1) := Nat.le_of_lt (kBucket_step _ (by omega))

lemma kBucket_le_of_le {i j : Nat} (hij : i ≤ j) (hj : j ≤ 166) :
    kBucket i ≤ kBucket j := by
  have := kBucket_mono (j - i) i (by omega)
  have hz : i + (j - i) = j := by omega
  rwa [hz] at this

lemma bucketScan_inBand :
    ∀ m b v, 0 < v → b ≤ m → m ≤ 166 →
      (b = 0 ∨ kBucket (b - 1) < v) → v ≤ kBucket m →
      inBand v (bucketScan v b m) := by
  intro m
  induction m with
  | zero =>
    intro b v hv _ _ _ hhigh
    exact ⟨by simpa using hv, hhigh⟩
  | succ m ih =>
    intro b v hv hbm hm hlow hhigh
    simp only [bucketScan]
    by_cases h1 : m + 1 ≤ b
    · have hb : b = m + 1 := by omega
      rw [if_pos h1]
      refine ⟨?_, hhigh⟩
      rcases hlow with h0 | hlt
      · omega
      · rw [hb] at hlt
        simpa using hlt
    · rw [if_neg h1]
      by_cases h2 : kBucket m < v
      · rw [if_pos h2]
        exact ⟨by simpa using h2, hhigh⟩
      · rw [if_neg h2]
        exact ih b v hv (by omega) (by omega) hlow (by omega)

lemma bucketSearchGo_inBand :
    ∀ fuel b f v, 0 < v → b < f → f ≤ 166 → f - b ≤ fuel →
      (b = 0 ∨ kBucket (b - 1) < v) → v ≤ kBucket f →
      inBand v (bucketSearchGo v fuel b f) := by
  intro fuel
  induction fuel with
  | zero => intro b f v _ hbf _ hfuel _ _; omega
  | succ n ih =>
    intro b f v hv hbf hf hfuel hlow hhigh
    simp only [bucketSearchGo]
    by_cases hm : b / 2 + f / 2 = b
    · rw [if_pos hm]
      exact bucketScan_inBand f b v hv (by omega) hf hlow hhigh
    · rw [if_neg hm]
      have hrange : b < b / 2 + f / 2 ∧ b / 2 + f / 2 < f := by omega
      by_cases hcmp : kBucket (b / 2 + f / 2 - 1) < v
      · rw [if_pos hcmp]
        exact ih _ f v hv hrange.2 hf (by omega) (Or.inr hcmp) hhigh
      · rw [if_neg hcmp]
        refine ih b _ v hv hrange.1 (by omega) (by omega) hlow ?_
        calc v ≤ kBucket (b / 2 + f / 2 - 1) := Nat.le_of_not_lt hcmp
          _ ≤ kBucket (b / 2 + f / 2) := kBucket_le_of_le (by omega) (by omega)

lemma inBand_lt_absurd {v i j : Nat} (hv : 0 < v) (hi : inBand v i)
    (hj : inBand v j) (hij : i < j) : False := by
  obtain ⟨_, hiu⟩ := hi
  obtain ⟨hjl, hju⟩ := hj
  have hj166 : j ≤ 166 := by
    by_contra hgt
    rw [kBucket_of_ge j (by omega)] at hju
    omega
  have hj0 : j ≠ 0 := by omega
  rw [if_neg hj0] at hjl
  have : kBucket i ≤ kBucket (j - 1) := kBucket_le_of_le (by omega) (by omega)
  omega

lemma inBand_unique {v i j : Nat} (hv : 0 < v) (hi : inBand v i)
    (hj : inBand v j) : i = j := by
  rcases Nat.lt_trichotomy i j with h | h | h
  · exact absurd (inBand_lt_absurd hv hi hj h) (by simp)
  · exact h
  · exact absurd (inBand_lt_absurd hv hj hi h) (by simp)

end CBench

namespace CBench

/-- C5 (amended): for every nonzero latency sample `v` (a `uint64`
value), the index selected by `Bucket::Add`\'s binary search with its
`begin/2 + finish/2` midpoint and downward linear fallback is the unique
`i` over the 167 ascending thresholds with
`kBuckets[i-1] < v ≤ kBuckets[i]` (taking `kBuckets[-1] = 0`); the
zero-latency sample is the one exception, see the counterexample. -/
theorem c5_bucket_band_amended (v : Nat) (hv : 0 < v) (hv64 : v < 2 ^ 64) :
    inBand v (bucketIndexOf v) ∧ ∀ j, inBand v j → j = bucketIndexOf v := by
  have h166 : kBucket 166 = 2 ^ 64 - 1 := by decide
  have hband : inBand v (bucketIndexOf v) := by
    show inBand v (bucketSearchGo v 167 0 166)
    exact bucketSearchGo_inBand 167 0 166 v hv (by omega) (by omega) (by omega)
      (Or.inl rfl) (by rw [h166]; omega)
  exact ⟨hband, fun j hj => inBand_unique hv hj hband⟩

set_option maxRecDepth 8000 in
/-- C5 (counterexample): at the sample `v = 0` (a zero-length latency
window, possible because the monotonic clock has nanosecond granularity)
the code selects bucket 0, but no index at all satisfies
`kBuckets[i-1] < 0 ≤ kBuckets[i]`, so the selected index is not "the
unique index" the claim describes. -/
theorem c5_zero_latency_counterexample :
    bucketIndexOf 0 = 0 ∧ ¬ inBand 0 (bucketIndexOf 0) ∧
      ∀ i, ¬ inBand 0 i := by
  refine ⟨by decide, by decide, fun i hi => ?_⟩
  obtain ⟨h1, _⟩ := hi
  omega

/-- C5 witness: the amended theorem applied at the concrete sample 1000. -/
theorem c5_bucket_band_amended_witness :
    0 < 1000 ∧ 1000 < 2 ^ 64 ∧
      (inBand 1000 (bucketIndexOf 1000) ∧
        ∀ j, inBand 1000 j → j = bucketIndexOf 1000) :=
  ⟨by norm_num, by norm_num,
    c5_bucket_band_amended 1000 (by norm_num) (by norm_num)⟩

/-- C1: the full injection pipeline is NOT collision-free for every seed
box, contradicting the source comment "Maps x to y one-to-one": under the
`uint16`-valued box `c1Box` and the accepted 16-bit configuration
`c1Opts` (`maxkey = 8`), the distinct raw indices 3 (space 0, serial 3)
and 4 (space 1, serial 0) inject to the same output, and the two spaces,
each wrapped once, emit a common key. -/
theorem c1_injection_collision_bug :
    (∀ i, c1Box i < 2 ^ 16) ∧
    (keyerBits (c1Opts.count * c1Opts.spacesCount % 2 ^ 64) = some 16 ∧
     mkKeyer c1Opts 0 0 = some ⟨c1Opts, 2, 0, 0⟩ ∧
     mkKeyer c1Opts 1 0 = some ⟨c1Opts, 2, 4, 0⟩ ∧
     (3 : Nat) ≠ 4 ∧ (3 : Nat) < 2 ^ 16 ∧ (4 : Nat) < 2 ^ 16 ∧
     keyerInjection c1Box 2 3 = keyerInjection c1Box 2 4 ∧
     c1KeyA = c1KeyB ∧
     c1KeyA ∈ keyerKeyRun c1Box ⟨c1Opts, 2, 0, 0⟩ 4 ∧
     c1KeyA ∈ keyerKeyRun c1Box ⟨c1Opts, 2, 4, 0⟩ 4) := by
  constructor
  · intro i
    simp only [c1Box]
    split
    · norm_num
    · split <;> norm_num
  · decide

/-- C7: merging a worker bucket whose `acc` equals its `last` snapshot is
a registry no-op: `MergeLocked` leaves the registry untouched, does not
run the merge body (hence never calls `Summarize` or touches
`workers_merged`), and leaves the source bucket alone. -/
theorem c7_merge_noop {reg : Registry} {src : Bucket} {now : Nat}
    (h : src.acc = src.last) :
    mergeLocked reg src now = some (reg, src, false) := by
  have hn : ¬ (((reg.perBench src.bench).enabled = true) ∧
      src.acc.n ≠ src.last.n) := fun hc => hc.2 (by rw [h])
  simp only [mergeLocked]
  rw [if_neg hn]

/-- C7 witness: the no-op merge at a concrete fresh worker bucket. -/
theorem c7_merge_noop_witness :
    mergeLocked (registryInit [.get] 0) (bucketReset (Bucket.fresh true 0) .get 0) 5 =
      some (registryInit [.get] 0, bucketReset (Bucket.fresh true 0) .get 0, false) :=
  c7_merge_noop rfl

set_option maxRecDepth 8000 in
/-- C8: at the moment a worker bucket is merged its count array does sum
to `acc.n - last.n`, but after the unconditional `Histogram::Merge` the
worker\'s count array is NOT zeroed (only `Bucket::Add`\'s try-lock path
resets it): the bucket `c8Src` with one unmerged sample still sums to
1 ≠ 0 after the merge, with `last` still behind `acc`. -/
theorem c8_merge_does_not_reset_counts :
    c8Src.counts.sum = c8Src.acc.n - c8Src.last.n ∧
    (histogramMerge c8Reg c8Src 5).map (fun r => r.2.1.counts) = some c8Src.counts ∧
    (histogramMerge c8Reg c8Src 5).map (fun r => r.2.1.counts.sum) = some 1 ∧
    (histogramMerge c8Reg c8Src 5).map (fun r => r.2.1.last.n) = some 0 ∧
    (histogramMerge c8Reg c8Src 5).map (fun r => r.2.1.acc.n) = some 1 ∧
    (1 : Nat) ≠ 0 := by
  decide

/-- C10: for every pool size in `[1, INT_MAX/2]` the assertion
`assert(pool_size < 1 || pool_size > INT_MAX / 2)` at the top of the
`Keyer::Batch` constructor is violated (its condition is false exactly on
the valid range), and the constructor itself aborts — its fill loop
dereferences the `gen_` member while it is still null.   The claimed
safe construction and `pool_size` successful `Load`s never happen. -/
theorem c10_batch_ctor_aborts (p : Nat) (h1 : 1 ≤ p) (h2 : p ≤ intMax / 2) :
    ¬ batchAssertCond p ∧ ∀ g : KeyerState, batchMk g p = none := by
  have hc : ¬ batchAssertCond p := by
    unfold batchAssertCond intMax at *
    omega
  refine ⟨hc, fun g => ?_⟩
  unfold batchMk
  rw [if_pos hc]

/-- C10 witness: the default `batch_length = 500` aborts. -/
theorem c10_batch_ctor_aborts_witness :
    ¬ batchAssertCond 500 ∧ ∀ g : KeyerState, batchMk g 500 = none :=
  c10_batch_ctor_aborts 500 (by norm_num) (by decide)

/-- C3: `Done`\'s result is NOT used only if `Next` succeeded — the source
line `if (!rc) { rc = rc2; }` replaces a failed `rc` with `Done`\'s
result: with `Next = SystemError` and `Done = Ok` the evaluator returns
`Ok`, and with `Done = NotFound` it returns `NotFound`, never the
`SystemError` the claim requires. -/
theorem c3_done_result_replaces_failed_next :
    (∀ s b kv, (nextErrDriver.dNext s b kv).1 = .systemError) ∧
    c3Run.map (fun r => r.1) = some .ok ∧
    Result.ok ≠ Result.systemError ∧
    c3RunB.map (fun r => r.1) = some .notFound := by
  exact ⟨fun s b kv => rfl, by decide⟩

end CBench

namespace CBench

set_option maxHeartbeats 2000000 in
/-- C2: when the crud evaluator propagates the driver\'s `SystemError`,
the worker does exit its iteration loop after that kind (the call trace
stops at the failed `Next`), but `FulFil` still returns 0 — so
`WorkerThreadFunc` never raises `failed_flag` and the process exit code
is 0, not the non-zero code the claim requires. -/
theorem c2_worker_failure_not_propagated :
    c2Run.map (fun r => (r.1, r.2.kindResults, r.2.calls)) =
      some (0, [(.crud, .systemError)],
        [.dcBegin .crud, .dcNext .set (c6RecB zeroBox)]) ∧
    workerThreadSetsFailed 0 false = false ∧
    runnerRunResult (workerThreadSetsFailed 0 false) = 0 ∧
    mainExitCode (runnerRunResult (workerThreadSetsFailed 0 false)) = 0 := by
  decide

set_option maxHeartbeats 1000000 in
/-- C6: in the `-D debug -B crud -n 1 -k 16 -v 32 -w 1 -r 0` run, the
driver sees exactly `Begin(Crud)`, `Next(Set, b)`, `Next(Set, a)`,
`Next(Delete, b)`, `Next(Get, a)`, `Done(Crud)`, in that order and
nothing else (`a`/`b` being the first records of `gen_a`/`gen_b`), and
the worker completes with return value 0. -/
theorem c6_crud_exact_trace :
    (c6Run zeroBox).map (fun r => (r.1, r.2.calls)) =
      some (0,
        [.dcBegin .crud, .dcNext .set (c6RecB zeroBox),
         .dcNext .set (c6RecA zeroBox), .dcNext .del (c6RecB zeroBox),
         .dcNext .get (c6RecA zeroBox), .dcDone .crud]) ∧
    c6RecA zeroBox ≠ c6RecB zeroBox := by
  decide

set_option maxHeartbeats 1000000 in
/-- C4 (counterexample): in the `-D debug -B get -n 10 -k 16 -v 32 -r 1
-w 0` run every recorded sample volume is 16, not 16 + 32 = 48: `Get`
requests key-only records, so the value span is empty and the debug
driver leaves it empty; the bucket therefore ends with
`acc.volume_sum = 160`, not the claimed 480. -/
theorem c4_volume_sum_counterexample :
    (c4Run zeroBox).map (fun r => (r.1, r.2.hg.acc.volumeSum, r.2.samples)) =
      some (0, 160, List.replicate 10 16) ∧
    (160 : Nat) ≠ 480 ∧ (16 : Nat) ≠ 48 := by
  refine ⟨by decide, by decide, by decide⟩

set_option maxHeartbeats 1000000 in
/-- C4 (amended): the get scenario records ten samples of volume
`key.len + value.len = 16 + 0` (the key-only record has an empty value),
so the worker bucket ends with `acc.volume_sum = 10 · 16 = 160`, and
`acc.n = 10`. -/
theorem c4_volume_sum_amended :
    (c4Run zeroBox).map
        (fun r => (r.1, r.2.hg.acc.volumeSum, r.2.hg.acc.n, r.2.samples)) =
      some (0, 160, 10, List.replicate 10 16) := by
  decide

end CBench

namespace CBench

lemma fillPrintable_length (width : Nat) :
    ∀ len point acc left, (fillPrintable width point acc left len).1.length = len := by
  intro len
  induction len with
  | zero => intro p a l; rfl
  | succ n ih =>
    intro p a l
    match n with
    | 0 => rfl
    | Nat.succ m =>
      simp only [fillPrintable]
      split
      · simpa using ih _ _ _
      · simpa using ih _ _ _

lemma mkKeyer_spec {opts : KeyerOptions} {ks kt : Nat} {st : KeyerState}
    (h : mkKeyer opts ks kt = some st) :
    st.opts = opts ∧ 0 < opts.count ∧ st.serial < opts.count ∧
      st.base = ks * opts.count % 2 ^ 64 ∧
      st.width = (keyerBits (opts.count * opts.spacesCount % 2 ^ 64)).getD 0 / 8 := by
  simp only [mkKeyer] at h
  by_cases h1 : opts.count * opts.spacesCount % 2 ^ 64 < 2
  · rw [if_pos h1] at h
    cases h
  · rw [if_neg h1] at h
    have hcount : 0 < opts.count := by
      rcases Nat.eq_zero_or_pos opts.count with h0 | hpos
      · exact absurd (by simp [h0]) h1
      · exact hpos
    cases hbits : keyerBits (opts.count * opts.spacesCount % 2 ^ 64) with
    | none =>
      rw [hbits] at h
      cases h
    | some bits =>
      rw [hbits] at h
      dsimp only [] at h
      by_cases h2 : kt ≠ 0 ∧ opts.sectorsCount = 0
      · rw [if_pos h2] at h
        cases h
      · rw [if_neg h2] at h
        have hst := (Option.some.inj h).symm
        subst hst
        refine ⟨rfl, hcount, ?_, rfl, rfl⟩
        by_cases hkt : kt ≠ 0
        · simp only [if_pos hkt]
          exact Nat.mod_lt _ hcount
        · simp only [if_neg hkt]
          exact hcount

set_option maxRecDepth 4000 in
lemma keyerKeyRun_formula (box : Nat → Nat) :
    ∀ n st, st.serial < st.opts.count →
      keyerKeyRun box st n = (List.range n).map
        (fun i => (recordPair box st.width st.opts.keySize st.opts.valueSize
          ((st.base + (st.serial + i) % st.opts.count) % 2 ^ 64)).key) := by
  intro n
  induction n with
  | zero => intro st _; rfl
  | succ n ih =>
    intro st hs
    have hc : 0 < st.opts.count := by omega
    have hstep :
        keyerGet box st false =
          (recordPair box st.width st.opts.keySize st.opts.valueSize
              ((st.base + st.serial) % 2 ^ 64),
            { st with serial := (st.serial + 1) % st.opts.count }) := by
      simp [keyerGet]
    show (keyerGet box st false).1.key ::
        keyerKeyRun box (keyerGet box st false).2 n = _
    rw [hstep]
    rw [ih { st with serial := (st.serial + 1) % st.opts.count }
      (Nat.mod_lt _ hc)]
    rw [List.range_succ_eq_map, List.map_cons, List.map_map]
    simp only [List.cons.injEq]
    constructor
    · rw [Nat.add_zero, Nat.mod_eq_of_lt hs]
    · apply List.map_congr_left
      intro i _
      simp only [Function.comp]
      have harith : ((st.serial + 1) % st.opts.count + i) % st.opts.count =
          (st.serial + Nat.succ i) % st.opts.count := by
        rw [Nat.mod_add_mod]
        congr 1
        omega
      rw [harith]

lemma rotation_injOn (c s0 : Nat) :
    ∀ i, i < c → ∀ j, j < c → (s0 + i) % c = (s0 + j) % c → i = j := by
  intro i hi j hj hij
  have h2 : i % c = j % c := Nat.ModEq.add_left_cancel' s0 hij
  rwa [Nat.mod_eq_of_lt hi, Nat.mod_eq_of_lt hj] at h2

lemma rotation_multiset (c s0 : Nat) (hc : 0 < c) :
    (((List.range c).map (fun i => (s0 + i) % c) : List Nat) : Multiset Nat) =
      ((List.range c : List Nat) : Multiset Nat) := by
  have hnodup : ((List.range c).map (fun i => (s0 + i) % c)).Nodup := by
    refine List.Nodup.map_on ?_ (List.nodup_range c)
    intro i hi j hj
    exact rotation_injOn c s0 i (List.mem_range.mp hi) j (List.mem_range.mp hj)
  apply Multiset.eq_of_le_of_card_le
  · rw [Multiset.le_iff_subset (Multiset.coe_nodup.mpr hnodup)]
    intro x hx
    rw [Multiset.mem_coe, List.mem_map] at hx
    obtain ⟨i, _, rfl⟩ := hx
    rw [Multiset.mem_coe, List.mem_range]
    exact Nat.mod_lt _ hc
  · rw [Multiset.coe_card, Multiset.coe_card, List.length_map, List.length_range]

lemma rotation_keys {α : Type} (g : Nat → α) (c sA sB : Nat)
    (hA : sA < c) (hB : sB < c) :
    (((List.range c).map (fun i => g ((sA + i) % c)) : List α) : Multiset α) =
      ((List.range c).map (fun i => g ((sB + i) % c)) : List α) := by
  have hsplit : ∀ s0 : Nat,
      (List.range c).map (fun i => g ((s0 + i) % c)) =
        ((List.range c).map (fun i => (s0 + i) % c)).map g := by
    intro s0
    rw [List.map_map]
    rfl
  have hside : ∀ s0 : Nat, s0 < c →
      (((((List.range c).map (fun i => (s0 + i) % c)).map g : List α)) : Multiset α) =
        Multiset.map g (((List.range c) : List Nat) : Multiset Nat) := by
    intro s0 hs0
    rw [← Multiset.map_coe, rotation_multiset c s0 (by omega)]
  rw [hsplit sA, hsplit sB, hside sA hA, hside sB hB]

/-- C9: for every seed box and every accepted `Keyer` configuration, a
generator at `(space s, sector t)` wrapped once (`count` calls of `Get`)
emits the same multiset of keys as a generator at `(space s, sector 0)`
wrapped once — sectors only change the starting phase. -/
theorem c9_sector_rotation_same_keyset (box : Nat → Nat)
    (opts : KeyerOptions) (s t : Nat) (stT st0 : KeyerState)
    (ht : t < opts.sectorsCount)
    (hT : mkKeyer opts s t = some stT) (h0 : mkKeyer opts s 0 = some st0) :
    (keyerKeyRun box stT opts.count : Multiset (List Char)) =
      (keyerKeyRun box st0 opts.count : Multiset (List Char)) := by
  obtain ⟨hoT, hcT, hsT, hbT, hwT⟩ := mkKeyer_spec hT
  obtain ⟨ho0, hc0, hs0, hb0, hw0⟩ := mkKeyer_spec h0
  rw [keyerKeyRun_formula box opts.count stT (by rw [hoT]; exact hsT),
    keyerKeyRun_formula box opts.count st0 (by rw [ho0]; exact hs0)]
  rw [hoT, ho0, hwT, hw0, hbT, hb0]
  exact rotation_keys
    (fun j => (recordPair box
      ((keyerBits (opts.count * opts.spacesCount % 2 ^ 64)).getD 0 / 8)
      opts.keySize opts.valueSize
      ((s * opts.count % 2 ^ 64 + j) % 2 ^ 64)).key)
    opts.count stT.serial st0.serial hsT hs0

/-- C9 witness: sector 1 of a 2-sector, 3-key space emits the same key
multiset as sector 0. -/
theorem c9_sector_rotation_same_keyset_witness :
    (1 < c9Opts.sectorsCount ∧
      mkKeyer c9Opts 0 1 = some ⟨c9Opts, 2, 0, 1⟩ ∧
      mkKeyer c9Opts 0 0 = some ⟨c9Opts, 2, 0, 0⟩) ∧
    (keyerKeyRun zeroBox ⟨c9Opts, 2, 0, 1⟩ c9Opts.count : Multiset (List Char)) =
      (keyerKeyRun zeroBox ⟨c9Opts, 2, 0, 0⟩ c9Opts.count : Multiset (List Char)) :=
  ⟨by decide,
    c9_sector_rotation_same_keyset zeroBox c9Opts 0 1 _ _ (by decide)
      (by decide) (by decide)⟩

end CBench
